import Mathlib

/- Verification development for the slamon repository (monitoring timeliness of
   products published to thredds.met.no).

   Embedding conventions:
   - Instants are integers counting seconds since 1970-01-01T00:00:00 UTC; all
     durations in the source (timedeltas) are whole minutes, so integer seconds
     lose nothing.  A timezone-aware datetime is a pair of the absolute UTC
     instant and the tz offset in seconds (local wall time = utc + offset).
   - Python floor division and modulo on integers are Int.ediv and Int.emod
     (both agree with floor semantics for the positive divisor 86400).
   - datetime.datetime(y, m, d, hour=h, tzinfo=utc) built from the calendar
     date of an instant x is 86400 * (day index of x) + 3600 * h, where the
     day index is Int.ediv of the wall-clock seconds by 86400.
   - Fallible Python code (AttributeError, assert, IndexError) is embedded
     with Except; board mutations are a list of Write values, and the
     external board is a Board record holding the slice of remote state for
     one component (its recorded status and the open incidents affecting it).
-/

namespace Slamon

/-- A timezone-aware instant: absolute UTC seconds since the epoch together
with the tz offset in seconds of the representation. -/
structure Instant where
  utc : Int
  tzOffset : Int

/-- Per-product configuration, from the ModelRun class hierarchy in
slamon/modelrun.py.  EXPECTED, WARNING_AFTER and ERROR_AFTER are in seconds;
INIT_HOURS is the cadence list of hours of day.  PATTERN, URL and
STATUSPAGE_ID are I/O-adapter configuration not used by the embedded logic
and are omitted. -/
structure ModelRunConfig where
  NAME : String
  EXPECTED : Int
  WARNING_AFTER : Int
  ERROR_AFTER : Int
  INIT_HOURS : List Nat

/-- The init_hours list of ModelRun.required after init_hours.sort(reverse=True):
the cadence hours in descending order. -/
def candidates (cfg : ModelRunConfig) : List Nat :=
  List.insertionSort (· ≥ ·) cfg.INIT_HOURS

/-- The calendar day index of the wall-clock representation of t (the
year/month/day fields read off the datetime object in its own timezone). -/
def localDay (t : Instant) : Int :=
  (t.utc + t.tzOffset) / 86400

/-- utctime in ModelRun.required: the evaluation instant minus EXPECTED and
WARNING_AFTER, as an absolute UTC instant. -/
def cutoff (cfg : ModelRunConfig) (t : Instant) : Int :=
  t.utc - cfg.EXPECTED - cfg.WARNING_AFTER

/-- The candidate datetime built in the loop of ModelRun.required:
datetime(datetime_.year, datetime_.month, datetime_.day, hour=h, tzinfo=utc),
i.e. hour h of the calendar day of the input in its own timezone, read as a
UTC instant. -/
def candidateInstant (t : Instant) (h : Nat) : Int :=
  86400 * localDay t + 3600 * (h : Int)

/-- ModelRun.required (slamon/modelrun.py lines 31-59): walks the cadence
hours in descending order over the calendar day of the input datetime and
returns the first candidate ≤ cutoff; if none qualifies, falls back to the
largest cadence hour on the day before the day of (cutoff - 1 day is taken
first, then its calendar date is used).  Returns none exactly when INIT_HOURS
is empty, where the source raises IndexError on init_hours[0]. -/
def required (cfg : ModelRunConfig) (t : Instant) : Option Int :=
  match (candidates cfg).find? (fun h => decide (candidateInstant t h ≤ cutoff cfg t)) with
  | some h => some (candidateInstant t h)
  | none =>
    match candidates cfg with
    | [] => none
    | h0 :: _ => some (86400 * ((cutoff cfg t - 86400) / 86400) + 3600 * (h0 : Int))

/-- ModelRun.prev (lines 61-71): self.required(self.bulletin); the stored
bulletin is a UTC datetime, hence offset 0. -/
def prevRun (cfg : ModelRunConfig) (bulletin : Int) : Option Int :=
  required cfg ⟨bulletin, 0⟩

/-- ModelRun.is_delayed (lines 73-85): bulletin + EXPECTED + ERROR_AFTER ≤ now. -/
def is_delayed (cfg : ModelRunConfig) (bulletin : Int) (now : Int) : Bool :=
  decide (bulletin + cfg.EXPECTED + cfg.ERROR_AFTER ≤ now)

/-- Membership of an instant in the cadence set of a product: its time of day
(seconds past UTC midnight) is 3600 * h for some configured hour h, hence
zero minutes and seconds. -/
def isCadence (cfg : ModelRunConfig) (b : Int) : Prop :=
  ∃ h ∈ cfg.INIT_HOURS, b % 86400 = 3600 * (h : Int)

/-- The abstract base configuration of class ModelRun: EXPECTED 2h20m,
WARNING_AFTER 15m, ERROR_AFTER 1h, INIT_HOURS [0, 6, 12, 18]. -/
def ModelRun : ModelRunConfig :=
  { NAME := "MODEL NAME", EXPECTED := 8400, WARNING_AFTER := 900,
    ERROR_AFTER := 3600, INIT_HOURS := [0, 6, 12, 18] }

/-- MEPSdet: EXPECTED 3h, cadence every 3rd hour (inherited from MEPS),
WARNING_AFTER 15m and ERROR_AFTER 1h inherited from ModelRun. -/
def MEPSdet : ModelRunConfig :=
  { NAME := "MEPS deterministic", EXPECTED := 10800, WARNING_AFTER := 900,
    ERROR_AFTER := 3600, INIT_HOURS := [0, 3, 6, 9, 12, 15, 18, 21] }

/-- MEPSdetpp: EXPECTED 45m, cadence every hour. -/
def MEPSdetpp : ModelRunConfig :=
  { NAME := "MEPS deterministic post processed", EXPECTED := 2700,
    WARNING_AFTER := 900, ERROR_AFTER := 3600, INIT_HOURS := List.range 24 }

/-- MEPSens: EXPECTED 5h10m, cadence every 3rd hour. -/
def MEPSens : ModelRunConfig :=
  { NAME := "MEPS ensemble", EXPECTED := 18600, WARNING_AFTER := 900,
    ERROR_AFTER := 3600, INIT_HOURS := [0, 3, 6, 9, 12, 15, 18, 21] }

/-- AAdet: EXPECTED 3h30m, INIT_HOURS inherited from ModelRun. -/
def AAdet : ModelRunConfig :=
  { NAME := "Arome Arctic deterministic", EXPECTED := 12600,
    WARNING_AFTER := 900, ERROR_AFTER := 3600, INIT_HOURS := [0, 6, 12, 18] }

/-- AAdetpp: EXPECTED 3h30m, INIT_HOURS inherited from ModelRun. -/
def AAdetpp : ModelRunConfig :=
  { NAME := "Arome Arctic deterministic post processed", EXPECTED := 12600,
    WARNING_AFTER := 900, ERROR_AFTER := 3600, INIT_HOURS := [0, 6, 12, 18] }

/-- Doctest 1 of ModelRun.required: evaluating at 1970-01-01T00:00:00Z yields
bulletin 1969-12-30T18:00:00Z (-108000 s). -/
theorem modelrun_doctest_epoch : required ModelRun ⟨0, 0⟩ = some (-108000) := by decide

/-- Doctest 2 of ModelRun.required: evaluating at epoch + EXPECTED (02:20Z)
still yields 1969-12-30T18:00:00Z. -/
theorem modelrun_doctest_expected : required ModelRun ⟨8400, 0⟩ = some (-108000) := by decide

/-- Doctest 3 of ModelRun.required: evaluating at epoch + EXPECTED +
WARNING_AFTER (02:35Z) yields 1970-01-01T00:00:00Z. -/
theorem modelrun_doctest_warning : required ModelRun ⟨9300, 0⟩ = some 0 := by decide

/-- Doctest 4 of ModelRun.required: evaluating at 18:12Z + EXPECTED +
WARNING_AFTER yields 1970-01-01T18:00:00Z (64800 s). -/
theorem modelrun_doctest_evening : required ModelRun ⟨74820, 0⟩ = some 64800 := by decide

/-- Doctest of ModelRun.prev: the previous scheduled bulletin of
1970-01-01T00:00:00Z is 1969-12-30T18:00:00Z. -/
theorem modelrun_doctest_prev : prevRun ModelRun 0 = some (-108000) := by decide

/-- On a list sorted in descending order, find? returns the greatest element
satisfying the predicate: every member satisfying it is ≤ the one found. -/
lemma find_max_of_sorted {l : List Nat} (hs : List.Sorted (· ≥ ·) l) {p : Nat → Bool}
    {a : Nat} (hf : l.find? p = some a) : ∀ x ∈ l, p x = true → x ≤ a := by
  induction l with
  | nil => simp at hf
  | cons b tl ih =>
    rcases List.sorted_cons.mp hs with ⟨hb, htl⟩
    by_cases hpb : p b = true
    · rw [List.find?_cons_of_pos _ hpb] at hf
      obtain rfl : b = a := by injection hf
      intro x hx _
      rcases List.mem_cons.mp hx with rfl | hx
      · exact le_refl x
      · exact hb x hx
    · rw [List.find?_cons_of_neg _ hpb] at hf
      intro x hx hpx
      rcases List.mem_cons.mp hx with rfl | hx
      · exact absurd hpx hpb
      · exact ih htl hf x hx hpx

/-- With a non-empty cadence, required always returns a bulletin. -/
lemma required_some (cfg : ModelRunConfig) (t : Instant) (hne : cfg.INIT_HOURS ≠ []) :
    ∃ b, required cfg t = some b := by
  have hcne : candidates cfg ≠ [] := by
    intro h
    apply hne
    have hp := List.perm_insertionSort (· ≥ ·) cfg.INIT_HOURS
    rw [show List.insertionSort (· ≥ ·) cfg.INIT_HOURS = candidates cfg from rfl, h] at hp
    exact hp.symm.eq_nil
  unfold required
  rcases hfind : (candidates cfg).find? (fun h => decide (candidateInstant t h ≤ cutoff cfg t)) with _ | a
  · rcases hc : candidates cfg with _ | ⟨h0, tl⟩
    · exact absurd hc hcne
    · exact ⟨_, rfl⟩
  · exact ⟨_, rfl⟩

/-- Every bulletin returned by required is at most the cutoff
(now - EXPECTED - WARNING_AFTER), for cadence hours below 24. -/
lemma required_le_cutoff (cfg : ModelRunConfig) (t : Instant)
    (hh : ∀ h ∈ cfg.INIT_HOURS, h < 24) {b : Int}
    (hb : required cfg t = some b) : b ≤ cutoff cfg t := by
  unfold required at hb
  rcases hfind : (candidates cfg).find? (fun h => decide (candidateInstant t h ≤ cutoff cfg t)) with _ | a
  · rw [hfind] at hb
    rcases hc : candidates cfg with _ | ⟨h0, tl⟩
    · rw [hc] at hb; exact absurd hb (by simp)
    · rw [hc] at hb
      obtain rfl : 86400 * ((cutoff cfg t - 86400) / 86400) + 3600 * (h0 : Int) = b := by
        injection hb
      have hmem : h0 ∈ cfg.INIT_HOURS := by
        have : h0 ∈ candidates cfg := hc ▸ List.mem_cons_self h0 tl
        exact (List.mem_insertionSort _).mp this
      have hlt : (h0 : Int) < 24 := by exact_mod_cast hh h0 hmem
      omega
  · rw [hfind] at hb
    obtain rfl : candidateInstant t a = b := by injection hb
    have := List.find?_some hfind
    exact of_decide_eq_true this

/-- Every bulletin returned by required is in the cadence set: its seconds
past UTC midnight are 3600 * h for a configured hour h. -/
lemma required_isCadence (cfg : ModelRunConfig) (t : Instant)
    (hh : ∀ h ∈ cfg.INIT_HOURS, h < 24) {b : Int}
    (hb : required cfg t = some b) : isCadence cfg b := by
  unfold required at hb
  rcases hfind : (candidates cfg).find? (fun h => decide (candidateInstant t h ≤ cutoff cfg t)) with _ | a
  · rw [hfind] at hb
    rcases hc : candidates cfg with _ | ⟨h0, tl⟩
    · rw [hc] at hb; exact absurd hb (by simp)
    · rw [hc] at hb
      obtain rfl : 86400 * ((cutoff cfg t - 86400) / 86400) + 3600 * (h0 : Int) = b := by
        injection hb
      have hmem : h0 ∈ cfg.INIT_HOURS := by
        have : h0 ∈ candidates cfg := hc ▸ List.mem_cons_self h0 tl
        exact (List.mem_insertionSort _).mp this
      refine ⟨h0, hmem, ?_⟩
      have hlt : (h0 : Int) < 24 := by exact_mod_cast hh h0 hmem
      have h0nn : (0 : Int) ≤ (h0 : Int) := Int.ofNat_nonneg h0
      omega
  · rw [hfind] at hb
    obtain rfl : candidateInstant t a = b := by injection hb
    have hmem : a ∈ cfg.INIT_HOURS :=
      (List.mem_insertionSort _).mp (List.mem_of_find?_eq_some hfind)
    refine ⟨a, hmem, ?_⟩
    have hlt : (a : Int) < 24 := by exact_mod_cast hh a hmem
    have hann : (0 : Int) ≤ (a : Int) := Int.ofNat_nonneg a
    unfold candidateInstant
    omega

/-- Among the cadence instants on the calendar day of the input, required
returns an upper bound of all those that meet the cutoff. -/
lemma required_localday_max (cfg : ModelRunConfig) (t : Instant) {b : Int}
    (hb : required cfg t = some b) :
    ∀ h ∈ cfg.INIT_HOURS, candidateInstant t h ≤ cutoff cfg t → candidateInstant t h ≤ b := by
  intro h hmem hle
  have hmem' : h ∈ candidates cfg := (List.mem_insertionSort _).mpr hmem
  unfold required at hb
  rcases hfind : (candidates cfg).find? (fun x => decide (candidateInstant t x ≤ cutoff cfg t)) with _ | a
  · have := List.find?_eq_none.mp hfind h hmem'
    simp only [decide_eq_true_eq] at this
    exact absurd hle this
  · rw [hfind] at hb
    obtain rfl : candidateInstant t a = b := by injection hb
    have hsorted : List.Sorted (· ≥ ·) (candidates cfg) :=
      List.sorted_insertionSort _ _
    have hha : h ≤ a :=
      find_max_of_sorted hsorted hfind h hmem' (by simpa using hle)
    have : (h : Int) ≤ (a : Int) := by exact_mod_cast hha
    unfold candidateInstant
    omega

/-- C3 (amended): for every product with a non-empty cadence of hours below
24 and every timezone-aware instant, required returns a bulletin that is a
cadence instant (hour of day in INIT_HOURS, zero minutes and seconds) and is
at most T - EXPECTED - WARNING_AFTER; it is maximal only among the cadence
instants projected onto the calendar day of the input datetime: when no
instant of that day meets the cutoff the code falls back to the latest
cadence hour of the day before the day of cutoff - 1 day, which can skip a
qualifying cadence instant on the day of the cutoff itself, so the returned
bulletin need not be the overall maximal cadence instant meeting the bound. -/
theorem c3_required_properties (cfg : ModelRunConfig) (hne : cfg.INIT_HOURS ≠ [])
    (hh : ∀ h ∈ cfg.INIT_HOURS, h < 24) (t : Instant) :
    ∃ b, required cfg t = some b ∧ isCadence cfg b ∧ b ≤ cutoff cfg t ∧
      ∀ h ∈ cfg.INIT_HOURS, candidateInstant t h ≤ cutoff cfg t → candidateInstant t h ≤ b := by
  obtain ⟨b, hb⟩ := required_some cfg t hne
  exact ⟨b, hb, required_isCadence cfg t hh hb, required_le_cutoff cfg t hh hb,
    required_localday_max cfg t hb⟩

/-- C3 witness: the amended statement instantiated at MEPSdet and the epoch,
with all hypotheses discharged on concrete data. -/
theorem c3_witness :
    (MEPSdet.INIT_HOURS ≠ [] ∧ ∀ h ∈ MEPSdet.INIT_HOURS, h < 24) ∧
    (∃ b, required MEPSdet ⟨0, 0⟩ = some b ∧ isCadence MEPSdet b ∧
      b ≤ cutoff MEPSdet ⟨0, 0⟩ ∧
      ∀ h ∈ MEPSdet.INIT_HOURS,
        candidateInstant ⟨0, 0⟩ h ≤ cutoff MEPSdet ⟨0, 0⟩ →
        candidateInstant ⟨0, 0⟩ h ≤ b) :=
  ⟨⟨by decide, by decide⟩, c3_required_properties MEPSdet (by decide) (by decide) ⟨0, 0⟩⟩

/-- C3 counterexample: at the epoch, MEPSdet.required returns
1969-12-30T21:00:00Z (-97200 s), yet 1969-12-31T18:00:00Z (-21600 s) is also
a cadence instant satisfying the bound and is strictly later, so the claimed
maximality over all cadence instants fails. -/
theorem c3_counterexample :
    required MEPSdet ⟨0, 0⟩ = some (-97200) ∧ isCadence MEPSdet (-21600) ∧
    (-21600 : Int) ≤ cutoff MEPSdet ⟨0, 0⟩ ∧ (-97200 : Int) < -21600 := by
  refine ⟨by decide, ⟨18, by decide, by decide⟩, by decide, by decide⟩

/-- C4 (amended): for the MEPSdet configuration (cadence every 3 hours,
EXPECTED 3h, WARNING_AFTER 15m), required evaluated at 1970-01-01T00:00:00Z
returns the bulletin 1969-12-30T21:00:00Z (-97200 s), one calendar day
earlier than the instant the claim names. -/
theorem c4_meps_epoch : required MEPSdet ⟨0, 0⟩ = some (-97200) := by decide

/-- C4 counterexample: required of MEPSdet at the epoch is not
1969-12-31T18:00:00Z (-21600 s) as the claim states. -/
theorem c4_counterexample : required MEPSdet ⟨0, 0⟩ ≠ some (-21600) := by decide

/-- C9: for every product with a non-empty cadence of hours below 24 and
positive EXPECTED + WARNING_AFTER, prev applied to the bulletin of required
returns a bulletin strictly earlier than that of required: evaluating the
schedule at exactly a scheduled instant never returns that same instant. -/
theorem c9_prev_strict (cfg : ModelRunConfig) (hne : cfg.INIT_HOURS ≠ [])
    (hh : ∀ h ∈ cfg.INIT_HOURS, h < 24)
    (hpos : 0 < cfg.EXPECTED + cfg.WARNING_AFTER) (t : Instant) :
    ∃ r p, required cfg t = some r ∧ prevRun cfg r = some p ∧ p < r := by
  obtain ⟨r, hr⟩ := required_some cfg t hne
  obtain ⟨p, hp⟩ := required_some cfg ⟨r, 0⟩ hne
  refine ⟨r, p, hr, hp, ?_⟩
  have := required_le_cutoff cfg ⟨r, 0⟩ hh hp
  unfold cutoff at this
  have hu : ({ utc := r, tzOffset := 0 } : Instant).utc = r := rfl
  rw [hu] at this
  omega

/-- C9 witness: MEPSdet at the epoch; required gives -97200 and prev of it
gives -118800 (1969-12-30T03:00:00Z), strictly earlier. -/
theorem c9_witness :
    (MEPSdet.INIT_HOURS ≠ [] ∧ (∀ h ∈ MEPSdet.INIT_HOURS, h < 24) ∧
      0 < MEPSdet.EXPECTED + MEPSdet.WARNING_AFTER) ∧
    (∃ r p, required MEPSdet ⟨0, 0⟩ = some r ∧ prevRun MEPSdet r = some p ∧ p < r) :=
  ⟨⟨by decide, by decide, by decide⟩,
    c9_prev_strict MEPSdet (by decide) (by decide) (by decide) ⟨0, 0⟩⟩

/-- C10 (amended): required is invariant under the timezone representation of
its input only when the calendar day of the wall-clock representation equals
the UTC calendar day of the instant; the candidate day is read off the input
in its own timezone, so representations of the same absolute instant whose
local date differs from the UTC date can yield a different bulletin. -/
theorem c10_day_invariance (cfg : ModelRunConfig) (t : Instant)
    (hday : localDay t = t.utc / 86400) :
    required cfg t = required cfg ⟨t.utc, 0⟩ := by
  have h1 : localDay t = localDay ⟨t.utc, 0⟩ := by
    rw [hday]; unfold localDay; norm_num
  have h2 : cutoff cfg t = cutoff cfg ⟨t.utc, 0⟩ := rfl
  unfold required candidateInstant
  rw [h1, h2]

/-- C10 witness: an instant represented at offset -02:00 whose local date is
the UTC date gives the same result as the UTC representation. -/
theorem c10_witness :
    localDay ⟨82800, -7200⟩ = (82800 : Int) / 86400 ∧
    required MEPSdet ⟨82800, -7200⟩ = required MEPSdet ⟨82800, 0⟩ :=
  ⟨by decide, c10_day_invariance MEPSdet ⟨82800, -7200⟩ (by decide)⟩

/-- C10 counterexample: the same absolute instant 1970-01-01T23:00:00Z
(82800 s) evaluated at offset +02:00 (local date 1970-01-02) and at UTC gives
different bulletins (-10800 versus 64800), so required is not a function of
the absolute instant alone. -/
theorem c10_counterexample :
    required MEPSdet ⟨82800, 7200⟩ ≠ required MEPSdet ⟨82800, 0⟩ := by decide

/-- One iteration of the inner node loop of extract_most_recent_bulletin
(slamon.py lines 53-69) for a fixed model: kept is the bulletin currently
stored for the model (none when the key is missing or the stored bulletin is
falsy), cand the bulletin of the node (none when never observed, since the
instance attribute starts as False).  A present candidate replaces the kept
value when nothing is kept or when it is strictly older; an absent candidate
leaves the kept value untouched. -/
def bulletinStep (kept cand : Option Int) : Option Int :=
  match cand with
  | none => kept
  | some c =>
    match kept with
    | none => some c
    | some k => if c < k then some c else some k

/-- extract_most_recent_bulletin, per model: fold the node observations for
one product over the empty initial dict.  The Python outer loop over models
acts independently per model, so the per-product projection is the whole
behaviour. -/
def extract_most_recent_bulletin (obs : List (Option Int)) : Option Int :=
  obs.foldl bulletinStep none

lemma bulletinStep_eq_none {acc o : Option Int} :
    bulletinStep acc o = none ↔ acc = none ∧ o = none := by
  rcases o with _ | c <;> rcases acc with _ | k <;> simp [bulletinStep]
  split <;> simp

lemma bulletinStep_some_cases {acc o : Option Int} {m : Int}
    (h : bulletinStep acc o = some m) : o = some m ∨ acc = some m := by
  rcases o with _ | c
  · exact Or.inr h
  · rcases acc with _ | k
    · exact Or.inl h
    · simp only [bulletinStep] at h
      by_cases hck : c < k
      · rw [if_pos hck] at h
        exact Or.inl h
      · rw [if_neg hck] at h
        exact Or.inr h

lemma bulletinStep_some_of_right (acc : Option Int) (c : Int) :
    ∃ m, bulletinStep acc (some c) = some m ∧ m ≤ c := by
  rcases acc with _ | k
  · exact ⟨c, rfl, le_refl c⟩
  · by_cases h : c < k
    · exact ⟨c, by simp [bulletinStep, h], le_refl c⟩
    · exact ⟨k, by simp [bulletinStep, h], by omega⟩

lemma bulletinStep_some_of_left (o : Option Int) (k : Int) :
    ∃ m, bulletinStep (some k) o = some m ∧ m ≤ k := by
  rcases o with _ | c
  · exact ⟨k, rfl, le_refl k⟩
  · by_cases h : c < k
    · exact ⟨c, by simp [bulletinStep, h], by omega⟩
    · exact ⟨k, by simp [bulletinStep, h], le_refl k⟩

/-- Invariant of the fold underlying extract_most_recent_bulletin, for any
accumulator: the result is none exactly when nothing was kept and no node
has an observation, and a returned value is one of the observations (or the
accumulator) and a lower bound of all observations and of the accumulator. -/
lemma extract_fold_spec (obs : List (Option Int)) : ∀ acc : Option Int,
    (List.foldl bulletinStep acc obs = none ↔ (acc = none ∧ ∀ o ∈ obs, o = none)) ∧
    (∀ t, List.foldl bulletinStep acc obs = some t →
      ((some t ∈ obs ∨ acc = some t) ∧ (∀ u, some u ∈ obs → t ≤ u) ∧
        (∀ k, acc = some k → t ≤ k))) := by
  induction obs with
  | nil =>
    intro acc
    constructor
    · simp
    · intro t ht
      rw [List.foldl_nil] at ht
      refine ⟨Or.inr ht, by simp, fun k hk => ?_⟩
      rw [ht] at hk
      injection hk with h
      omega
  | cons o rest ih =>
    intro acc
    obtain ⟨ih1, ih2⟩ := ih (bulletinStep acc o)
    constructor
    · rw [List.foldl_cons, ih1, bulletinStep_eq_none, List.forall_mem_cons]
      tauto
    · intro t ht
      rw [List.foldl_cons] at ht
      obtain ⟨m1, m2, m3⟩ := ih2 t ht
      refine ⟨?_, ?_, ?_⟩
      · rcases m1 with hm | hm
        · exact Or.inl (List.mem_cons_of_mem o hm)
        · rcases bulletinStep_some_cases hm with ho | ha
          · exact Or.inl (by rw [← ho]; exact List.mem_cons_self o rest)
          · exact Or.inr ha
      · intro u hu
        rcases List.mem_cons.mp hu with ho | hu
        · obtain ⟨m, hm, hmu⟩ := bulletinStep_some_of_right acc u
          rw [ho] at hm
          exact le_trans (m3 m hm) hmu
        · exact m2 u hu
      · intro k hk
        obtain ⟨m, hm, hmk⟩ := bulletinStep_some_of_left o k
        rw [← hk] at hm
        exact le_trans (m3 m hm) hmk

/-- C1 (amended): the consensus of extract_most_recent_bulletin for a product
is absent exactly when no node at all has an observation for it (in
particular when the node set is empty); nodes without an observation are
skipped rather than forcing an absent result, and the returned value is the
minimum of the observations that are present. -/
theorem c1_consensus_characterization (obs : List (Option Int)) :
    (extract_most_recent_bulletin obs = none ↔ ∀ o ∈ obs, o = none) ∧
    (∀ t, extract_most_recent_bulletin obs = some t →
      some t ∈ obs ∧ ∀ u, some u ∈ obs → t ≤ u) := by
  obtain ⟨h1, h2⟩ := extract_fold_spec obs none
  constructor
  · unfold extract_most_recent_bulletin
    rw [h1]
    simp
  · intro t ht
    obtain ⟨m1, m2, _⟩ := h2 t ht
    rcases m1 with hm | hm
    · exact ⟨hm, m2⟩
    · exact absurd hm (by simp)

/-- C1 witness: the characterization instantiated on a concrete observation
list with one absent and two present observations. -/
theorem c1_witness :
    (extract_most_recent_bulletin [some 5, none, some 3] = none ↔
      ∀ o ∈ [some (5 : Int), none, some 3], o = none) ∧
    (∀ t, extract_most_recent_bulletin [some 5, none, some 3] = some t →
      some t ∈ [some (5 : Int), none, some 3] ∧
      ∀ u, some u ∈ [some (5 : Int), none, some 3] → t ≤ u) :=
  c1_consensus_characterization [some 5, none, some 3]

/-- C1 counterexample: with one node observing 100 and one node without any
observation, the consensus is some 100, not absent, refuting the claimed
fail-safe that any absent observation yields an absent consensus. -/
theorem c1_counterexample :
    extract_most_recent_bulletin [some 100, none] = some 100 ∧
    extract_most_recent_bulletin [some 100, none] ≠ none := by
  refine ⟨by decide, by decide⟩

/-- Outcome of one product in the loop of main (slamon.py lines 94-122):
skipped when the product never entered most_recent_bulletin (no node had an
observation, so the loop body never runs for it and no board action at all
is taken), healthy when the consensus meets the requirement (the resolve
branch), degraded otherwise.  none models the IndexError of required on an
empty cadence. -/
inductive EvalPath
  | skipped
  | healthy
  | degraded
deriving DecidableEq

/-- The per-product path taken by main for observations obs at instant now
(main computes now as an aware UTC datetime, hence offset 0). -/
def evaluateProduct (cfg : ModelRunConfig) (obs : List (Option Int)) (now : Int) :
    Option EvalPath :=
  match extract_most_recent_bulletin obs with
  | none => some EvalPath.skipped
  | some b =>
    match required cfg ⟨now, 0⟩ with
    | none => none
    | some r => some (if r ≤ b then EvalPath.healthy else EvalPath.degraded)

/-- C2 (amended): when at least one node has an observation for a product,
an absent observation from another node is ignored: the consensus is the
minimum over the nodes that do have observations, and the product is
reported healthy exactly when that minimum meets the requirement.  Only when
no node has an observation is the product skipped entirely, with no board
action of any kind (neither healthy nor degraded). -/
theorem c2_path_characterization (cfg : ModelRunConfig) (obs : List (Option Int))
    (now b r : Int)
    (hobs : extract_most_recent_bulletin obs = some b)
    (hreq : required cfg ⟨now, 0⟩ = some r) :
    evaluateProduct cfg obs now =
      some (if r ≤ b then EvalPath.healthy else EvalPath.degraded) := by
  unfold evaluateProduct
  rw [hobs, hreq]

/-- C2 witness: MEPSdet with nodes [absent, epoch, epoch] at the epoch; the
consensus is some 0, the requirement -97200, and the product is healthy. -/
theorem c2_witness :
    (extract_most_recent_bulletin [none, some 0, some 0] = some 0 ∧
      required MEPSdet ⟨0, 0⟩ = some (-97200)) ∧
    evaluateProduct MEPSdet [none, some 0, some 0] 0 =
      some (if (-97200 : Int) ≤ 0 then EvalPath.healthy else EvalPath.degraded) :=
  ⟨⟨by decide, by decide⟩,
    c2_path_characterization MEPSdet [none, some 0, some 0] 0 0 (-97200)
      (by decide) (by decide)⟩

/-- C2 counterexample: one of three nodes is unreachable (no observation)
while the other two are current, yet the evaluation reports the product
healthy: the absent observation is ignored instead of forcing an absent
consensus and the degraded path. -/
theorem c2_counterexample :
    evaluateProduct MEPSdet [none, some 0, some 0] 0 = some EvalPath.healthy ∧
    EvalPath.healthy ≠ EvalPath.degraded := by
  refine ⟨by decide, by decide⟩

/-- Python exceptions raised by the embedded code paths. -/
inductive PyError
  | attributeError
  | assertionError
  | indexError
deriving DecidableEq

/-- Board mutations issued through the StatusPage client, for the component
of a single product.  setStatus is a component status patch; createIncident
opens an incident in state investigating with the given title, message and
optional impact_override; updateIncident patches an incident with the given
payload of key-value pairs. -/
inductive Write
  | setStatus (status : String)
  | createIncident (title message : String) (impact : Option String)
  | updateIncident (incident_id : String) (payload : List (String × String))
deriving DecidableEq

/-- Allowed incident states of StatusPage.update_incident (statuspage.py). -/
def allowedIncidentStatusValues : List String :=
  ["investigating", "identified", "monitoring", "resolved"]

/-- Allowed impact values of create_incident and update_incident. -/
def allowedImpactValues : List String :=
  ["none", "minor", "major"]

/-- Tail of StatusPage.update_incident after the status assert: add message
and impact to the payload (impact only when truthy and asserted legal), then
issue one updateIncident write, or none at all when the payload is empty. -/
def update_incident_payload (incident_id : String) (p0 : List (String × String))
    (message impact : Option String) : Except PyError (List Write) :=
  let p1 := match message with
    | some m => p0 ++ [("message", m)]
    | none => p0
  match impact with
  | some i =>
    if i = "" then Except.ok (if p1.isEmpty then [] else [Write.updateIncident incident_id p1])
    else if i ∈ allowedImpactValues then
      Except.ok [Write.updateIncident incident_id (p1 ++ [("impact_override", i)])]
    else Except.error PyError.assertionError
  | none => Except.ok (if p1.isEmpty then [] else [Write.updateIncident incident_id p1])

/-- StatusPage.update_incident (statuspage.py lines 137-162): parameters in
positional order (incident_id, status, message, impact).  A non-None status
must be one of the four incident states, else the assert fails. -/
def update_incident (incident_id : String) (status message impact : Option String) :
    Except PyError (List Write) :=
  match status with
  | some s =>
    if s ∈ allowedIncidentStatusValues then
      update_incident_payload incident_id [("status", s)] message impact
    else Except.error PyError.assertionError
  | none => update_incident_payload incident_id [] message impact

/-- The fixed message used by StatusPage.resolve_incident. -/
def resolvedMessage : String :=
  "Our monitoring system has detected that this incident has been resolved."

/-- StatusPage.resolve_incident: update_incident with status resolved and the
fixed message. -/
def resolve_incident (incident_id : String) : Except PyError (List Write) :=
  update_incident incident_id (some "resolved") (some resolvedMessage) none

/-- StatusPage.create_incident (statuspage.py lines 112-135): opens an
incident in state investigating; a truthy impact must be legal (assert) and
is recorded as impact_override. -/
def create_incident (title message : String) (impact : Option String) :
    Except PyError (List Write) :=
  match impact with
  | some i =>
    if i = "" then Except.ok [Write.createIncident title message none]
    else if i ∈ allowedImpactValues then
      Except.ok [Write.createIncident title message (some i)]
    else Except.error PyError.assertionError
  | none => Except.ok [Write.createIncident title message none]

/-- The slice of remote board state for one component: its recorded status
(none when the component dictionary has no entry for it) and the list of
open (unresolved) incidents affecting it, as (incident id, incident title)
pairs. -/
structure Board where
  componentStatus : Option String
  openIncidents : List (String × String)

/-- The open-incident scan of main (lines 98-103): the first open incident
whose title equals the canonical title, or none. -/
def findIncident (incidents : List (String × String)) (title : String) : Option String :=
  (incidents.find? (fun i => decide (i.2 = title))).map (fun i => i.1)

/-- Whether an updateIncident payload resolves the incident (the board then
drops it from the unresolved set). -/
def payloadResolves (p : List (String × String)) : Bool :=
  decide (("status", "resolved") ∈ p)

/-- Effect of one board write on the remote state of the component: a status
patch records the new status; creating an incident opens one (the board
allocates the id, modelled as an empty id, unused by the claims); an update
whose payload sets status to resolved removes the incident from the open
set, other updates keep the open set (message and impact changes do not
affect openness). -/
def applyWrite (b : Board) : Write → Board
  | Write.setStatus s => { b with componentStatus := some s }
  | Write.createIncident title _ _ =>
    { b with openIncidents := b.openIncidents ++ [("", title)] }
  | Write.updateIncident i p =>
    if payloadResolves p then
      { b with openIncidents := b.openIncidents.filter (fun x => !(decide (x.1 = i))) }
    else b

/-- Apply a sequence of board writes in order. -/
def applyWrites (b : Board) (ws : List Write) : Board :=
  ws.foldl applyWrite b

/-- The conditional status push used by resolve: write the new status only
when the recorded status differs (None compares unequal to any status). -/
def statusWrite (current : Option String) (component_status : String) : List Write :=
  if current = some component_status then [] else [Write.setStatus component_status]

/-- The resolve function of slamon.py (lines 71-78): push component_status
when it differs from the recorded status, then resolve any open incident. -/
def resolveBoard (current : Option String) (component_status : String)
    (open_incident : Option String) : Except PyError (List Write) :=
  match open_incident with
  | some oid => (resolve_incident oid).map (fun ws => statusWrite current component_status ++ ws)
  | none => Except.ok (statusWrite current component_status)

/-- The healthy branch of main for one product (lines 105-107): find the open
incident with the canonical title and call resolve with status operational. -/
def healthyPass (cfg : ModelRunConfig) (b : Board) : Except PyError (List Write) :=
  resolveBoard b.componentStatus "operational"
    (findIncident b.openIncidents (cfg.NAME ++ " production"))

lemma resolve_incident_eq (i : String) :
    resolve_incident i = Except.ok
      [Write.updateIncident i [("status", "resolved"), ("message", resolvedMessage)]] := rfl

/-- Two distinct members both satisfying a predicate force its count above 1. -/
lemma two_le_countP {α : Type} {p : α → Bool} {l : List α} {x y : α}
    (hx : x ∈ l) (hy : y ∈ l) (hxy : x ≠ y) (hpx : p x = true) (hpy : p y = true) :
    2 ≤ l.countP p := by
  induction l with
  | nil => simp at hx
  | cons a tl ih =>
    rcases List.mem_cons.mp hx with rfl | hx2
    · rcases List.mem_cons.mp hy with rfl | hy2
      · exact absurd rfl hxy
      · have h1 : 0 < tl.countP p := List.countP_pos_iff.mpr ⟨y, hy2, hpy⟩
        have h2 : (x :: tl).countP p = tl.countP p + 1 :=
          List.countP_cons_of_pos _ _ hpx
        omega
    · rcases List.mem_cons.mp hy with rfl | hy2
      · have h1 : 0 < tl.countP p := List.countP_pos_iff.mpr ⟨x, hx2, hpx⟩
        have h2 : (y :: tl).countP p = tl.countP p + 1 :=
          List.countP_cons_of_pos _ _ hpy
        omega
      · have h1 := ih hx2 hy2
        have h2 : (a :: tl).countP p = tl.countP p + if p a then 1 else 0 :=
          List.countP_cons _ _ _
        by_cases hpa : p a = true
        · rw [if_pos hpa] at h2
          omega
        · rw [if_neg hpa] at h2
          omega

lemma applyWrite_setStatus (b : Board) (s : String) :
    applyWrite b (Write.setStatus s) = { b with componentStatus := some s } := rfl

lemma applyWrite_resolve (b : Board) (i : String) :
    applyWrite b (Write.updateIncident i [("status", "resolved"), ("message", resolvedMessage)])
      = { b with openIncidents := b.openIncidents.filter (fun x => !(decide (x.1 = i))) } := by
  simp [applyWrite, payloadResolves]

/-- C8: invoking the healthy-path reconciliation a second time, with the
external board state changed only by the effects of the first invocation,
performs zero board writes: the component status is then already operational
(so no status push) and the incident resolved by the first pass no longer
appears among open incidents (so no resolve call).  The hypothesis is the
documented invariant that at most one open incident carries the canonical
title. -/
theorem c8_healthy_idempotent (cfg : ModelRunConfig) (b : Board) (ws : List Write)
    (huniq : b.openIncidents.countP
      (fun i => decide (i.2 = cfg.NAME ++ " production")) ≤ 1)
    (h1 : healthyPass cfg b = Except.ok ws) :
    healthyPass cfg (applyWrites b ws) = Except.ok [] := by
  unfold healthyPass resolveBoard at h1
  rcases hfind : findIncident b.openIncidents (cfg.NAME ++ " production") with _ | oid
  · rw [hfind] at h1
    obtain rfl : ws = statusWrite b.componentStatus "operational" := by
      have h2 := h1.symm
      simpa using h2
    by_cases hst : b.componentStatus = some "operational"
    · have hw : statusWrite b.componentStatus "operational" = [] := by
        unfold statusWrite
        rw [if_pos hst]
      rw [hw]
      have hb2 : applyWrites b [] = b := rfl
      rw [hb2]
      unfold healthyPass resolveBoard
      rw [hfind]
      rw [hw]
    · have hw : statusWrite b.componentStatus "operational" = [Write.setStatus "operational"] := by
        unfold statusWrite
        rw [if_neg hst]
      rw [hw]
      have hb2 : applyWrites b [Write.setStatus "operational"] =
          { b with componentStatus := some "operational" } := rfl
      rw [hb2]
      unfold healthyPass resolveBoard
      have hfind2 : findIncident
          ({ b with componentStatus := some "operational" } : Board).openIncidents
          (cfg.NAME ++ " production") = none := hfind
      rw [hfind2]
      unfold statusWrite
      rw [if_pos rfl]
  · rw [hfind] at h1
    simp only [resolve_incident_eq, Except.map, Except.ok.injEq] at h1
    obtain rfl : ws = statusWrite b.componentStatus "operational" ++
        [Write.updateIncident oid [("status", "resolved"), ("message", resolvedMessage)]] :=
      h1.symm
    -- the board after the first pass: status operational, the incident gone
    have hb2 : applyWrites b (statusWrite b.componentStatus "operational" ++
        [Write.updateIncident oid [("status", "resolved"), ("message", resolvedMessage)]]) =
        { componentStatus := some "operational",
          openIncidents := b.openIncidents.filter (fun x => !(decide (x.1 = oid))) } := by
      by_cases hst : b.componentStatus = some "operational"
      · have hw : statusWrite b.componentStatus "operational" = [] := by
          unfold statusWrite
          rw [if_pos hst]
        rw [hw, List.nil_append]
        have h3 : applyWrites b [Write.updateIncident oid
            [("status", "resolved"), ("message", resolvedMessage)]] =
            applyWrite b (Write.updateIncident oid
              [("status", "resolved"), ("message", resolvedMessage)]) := rfl
        rw [h3, applyWrite_resolve, ← hst]
      · have hw : statusWrite b.componentStatus "operational" = [Write.setStatus "operational"] := by
          unfold statusWrite
          rw [if_neg hst]
        rw [hw]
        have h3 : applyWrites b ([Write.setStatus "operational"] ++
            [Write.updateIncident oid [("status", "resolved"), ("message", resolvedMessage)]]) =
            applyWrite (applyWrite b (Write.setStatus "operational"))
              (Write.updateIncident oid [("status", "resolved"), ("message", resolvedMessage)]) := rfl
        rw [h3, applyWrite_setStatus, applyWrite_resolve]
    rw [hb2]
    -- the canonical incident found by the first pass
    unfold findIncident at hfind
    rcases ho : b.openIncidents.find? (fun i => decide (i.2 = cfg.NAME ++ " production")) with _ | q
    · rw [ho] at hfind
      simp at hfind
    · rw [ho] at hfind
      simp only [Option.map_some'] at hfind
      obtain rfl : q.1 = oid := by injection hfind
      have hq2 : q.2 = cfg.NAME ++ " production" := by simpa using List.find?_some ho
      have hqmem : q ∈ b.openIncidents := List.mem_of_find?_eq_some ho
      -- no open incident with the canonical title remains after the resolve
      have hfind2 : findIncident
          (b.openIncidents.filter (fun x => !(decide (x.1 = q.1))))
          (cfg.NAME ++ " production") = none := by
        unfold findIncident
        rw [List.find?_eq_none.mpr ?_]
        · rfl
        · intro x hx hpx
          obtain ⟨hxmem, hxid⟩ := List.mem_filter.mp hx
          have hx2 : x.2 = cfg.NAME ++ " production" := by simpa using hpx
          have hxq : x ≠ q := by
            intro h
            rw [h] at hxid
            simp at hxid
          have h2 := two_le_countP (p := fun i => decide (i.2 = cfg.NAME ++ " production"))
            hxmem hqmem hxq (by simp [hx2]) (by simp [hq2])
          omega
      unfold healthyPass resolveBoard
      dsimp only
      rw [hfind2]
      unfold statusWrite
      rw [if_pos rfl]

/-- C8 witness: a board with status degraded_performance and one open
incident with the canonical MEPSdet title; the first pass pushes operational
and resolves the incident, and the second pass on the resulting board
performs zero writes. -/
theorem c8_witness :
    ((⟨some "degraded_performance", [("i1", "MEPS deterministic production")]⟩ :
        Board).openIncidents.countP
      (fun i => decide (i.2 = MEPSdet.NAME ++ " production")) ≤ 1) ∧
    healthyPass MEPSdet ⟨some "degraded_performance", [("i1", "MEPS deterministic production")]⟩
      = Except.ok [Write.setStatus "operational",
          Write.updateIncident "i1" [("status", "resolved"), ("message", resolvedMessage)]] ∧
    healthyPass MEPSdet
      (applyWrites ⟨some "degraded_performance", [("i1", "MEPS deterministic production")]⟩
        [Write.setStatus "operational",
         Write.updateIncident "i1" [("status", "resolved"), ("message", resolvedMessage)]])
      = Except.ok [] :=
  ⟨by decide, rfl,
    c8_healthy_idempotent MEPSdet
      ⟨some "degraded_performance", [("i1", "MEPS deterministic production")]⟩
      [Write.setStatus "operational",
       Write.updateIncident "i1" [("status", "resolved"), ("message", resolvedMessage)]]
      (by decide) rfl⟩

/-- The attribute names defined in the class bodies of ModelRun and its
subclasses in slamon/modelrun.py.  bulletin is absent: it is assigned only on
instances, inside the constructor, never on a class. -/
def modelRunClassAttrNames : List String :=
  ["NAME", "EXPECTED", "WARNING_AFTER", "ERROR_AFTER", "PATTERN", "URL",
   "STATUSPAGE_ID", "INIT_HOURS"]

/-- The lookup model.bulletin performed by main (slamon.py lines 109 and 114)
where model is the ModelRun class object itself, not an instance: since
bulletin is not among the class attributes, the lookup raises
AttributeError.  The ok branch is provably dead; its value 0 is an arbitrary
placeholder for the attribute value that would be read if it existed. -/
def modelClassBulletin : Except PyError Int :=
  if "bulletin" ∈ modelRunClassAttrNames then Except.ok 0
  else Except.error PyError.attributeError

/-- The mild incident message of the degraded branch (line 109), with the
strftime rendering of the bulletin abstracted as a string parameter. -/
def mildMessage (name bulletinStr : String) : String :=
  name ++ " results from model run based on analysis of " ++ bulletinStr ++
    " is not yet published. Normally we would expect it by now. Please use earlier forecast."

/-- The escalated incident message of the degraded branch (line 114). -/
def severeMessage (name bulletinStr : String) : String :=
  name ++ " results from model run based on analysis of " ++ bulletinStr ++
    " is not yet published. This is a significant delay and we are sorry about any inconvenience. Please use earlier forecast."

/-- The (component_status, impact) pair at the end of the severity block of
the degraded branch (slamon.py lines 104-114, with the aborting message
composition modelled separately in degradedBranch): component_status starts
as operational and impact as none, and both are reassigned to
degraded_performance and minor exactly when required is critically late
(is_delayed) or the previous scheduled bulletin is newer than the consensus.
none models the IndexError of prev on an empty cadence. -/
def targetStatusImpact (cfg : ModelRunConfig) (requiredB consensusB now : Int) :
    Option (String × String) :=
  if is_delayed cfg requiredB now then some ("degraded_performance", "minor")
  else
    match prevRun cfg requiredB with
    | none => none
    | some p =>
      if consensusB < p then some ("degraded_performance", "minor")
      else some ("operational", "none")

/-- Status, impact and message of the degraded branch as a function of the
rendered bulletin string, with the same branch structure as
targetStatusImpact. -/
def degradedTriple (cfg : ModelRunConfig) (requiredB consensusB now : Int)
    (bulletinStr : String) : Option (String × String × String) :=
  if is_delayed cfg requiredB now then
    some ("degraded_performance", "minor", severeMessage cfg.NAME bulletinStr)
  else
    match prevRun cfg requiredB with
    | none => none
    | some p =>
      if consensusB < p then
        some ("degraded_performance", "minor", severeMessage cfg.NAME bulletinStr)
      else some ("operational", "none", mildMessage cfg.NAME bulletinStr)

/-- The degraded branch of main for one product (slamon.py lines 108-122):
the message composition evaluates model.bulletin on the class, which aborts
with AttributeError before anything else; past that point (dead code, still
translated) the severity block runs, then with an open incident a status
difference pushes the status and calls update_incident with the message
passed positionally into the status parameter, and without an open incident
the status is pushed and an incident created with the canonical title.
render stands for strftime of the bulletin value, orthogonal to the claims. -/
def degradedBranch (render : Int → String) (cfg : ModelRunConfig)
    (requiredB consensusB now : Int) (boardStatus : Option String)
    (open_incident : Option String) : Except PyError (List Write) :=
  match modelClassBulletin with
  | Except.error e => Except.error e
  | Except.ok mb =>
    match degradedTriple cfg requiredB consensusB now (render mb) with
    | none => Except.error PyError.indexError
    | some (component_status, impact, message) =>
      match open_incident with
      | some oid =>
        if boardStatus = some component_status then Except.ok []
        else (update_incident oid (some message) none (some impact)).map
          (fun ws => Write.setStatus component_status :: ws)
      | none =>
        (create_incident (cfg.NAME ++ " production") message (some impact)).map
          (fun ws => Write.setStatus component_status :: ws)

/-- C5: on the degraded path the message composition fails for every product:
main formats model.bulletin where model is the class, which has no bulletin
attribute, so the branch aborts with AttributeError before composing any
message; the concrete input is MEPSdet at the epoch with consensus
1969-12-30T18:00:00Z, strictly behind the requirement 1969-12-30T21:00:00Z. -/
theorem c5_degraded_message_crash :
    required MEPSdet ⟨0, 0⟩ = some (-97200) ∧ (-108000 : Int) < -97200 ∧
    degradedBranch (fun _ => "") MEPSdet (-97200) (-108000) 0
      (some "operational") none = Except.error PyError.attributeError :=
  ⟨by decide, by decide, rfl⟩

/-- C7: the update_incident call of the degraded branch (slamon.py line 119)
passes the composed message positionally into the status parameter of
update_incident, whose assert admits only the four incident states; the call
therefore raises AssertionError instead of updating the open incident with
the new message and impact. -/
theorem c7_update_call_assert :
    update_incident "i1"
      (some (severeMessage "MEPS deterministic" "1970-01-01 00 UTC"))
      none (some "minor") = Except.error PyError.assertionError := rfl

/-- C6 counterexample: a degraded, non-escalated MEPSdet scenario (now
12:16Z, required 09:00Z, consensus 06:00Z, previous scheduled bulletin
03:00Z): required is not critically late and the consensus is newer than the
previous bulletin, yet the target pair is (operational, none), not
(degraded_performance, minor) as the claim states. -/
theorem c6_counterexample :
    required MEPSdet ⟨44160, 0⟩ = some 32400 ∧ (21600 : Int) < 32400 ∧
    is_delayed MEPSdet 32400 44160 = false ∧
    prevRun MEPSdet 32400 = some 10800 ∧ ¬((21600 : Int) < 10800) ∧
    targetStatusImpact MEPSdet 32400 21600 44160 = some ("operational", "none") ∧
    (("operational", "none") : String × String) ≠ ("degraded_performance", "minor") := by
  refine ⟨by decide, by decide, by decide, by decide, by decide, by decide, by decide⟩

/-- C6 (amended): on the degraded path the default target pair is
(operational, none); it is (degraded_performance, minor) exactly when the
escalation condition holds (required critically late, or the consensus older
than the previous scheduled bulletin). -/
theorem c6_severity_mapping (cfg : ModelRunConfig) (requiredB consensusB now p : Int)
    (hp : prevRun cfg requiredB = some p) :
    (is_delayed cfg requiredB now = false → ¬(consensusB < p) →
      targetStatusImpact cfg requiredB consensusB now = some ("operational", "none")) ∧
    ((is_delayed cfg requiredB now = true ∨ consensusB < p) →
      targetStatusImpact cfg requiredB consensusB now
        = some ("degraded_performance", "minor")) := by
  unfold targetStatusImpact
  constructor
  · intro hd hc
    rw [hd]
    simp only [Bool.false_eq_true, if_false]
    rw [hp]
    dsimp only
    rw [if_neg hc]
  · intro h
    rcases h with hd | hc
    · rw [hd]
      simp
    · by_cases hd : is_delayed cfg requiredB now = true
      · rw [hd]
        simp
      · simp only [Bool.not_eq_true] at hd
        rw [hd]
        simp only [Bool.false_eq_true, if_false]
        rw [hp]
        dsimp only
        rw [if_pos hc]

/-- C6 witness: the severity mapping instantiated on the counterexample
scenario, with the prev hypothesis discharged concretely. -/
theorem c6_witness :
    prevRun MEPSdet 32400 = some 10800 ∧
    ((is_delayed MEPSdet 32400 44160 = false → ¬((21600 : Int) < 10800) →
      targetStatusImpact MEPSdet 32400 21600 44160 = some ("operational", "none")) ∧
     ((is_delayed MEPSdet 32400 44160 = true ∨ (21600 : Int) < 10800) →
      targetStatusImpact MEPSdet 32400 21600 44160
        = some ("degraded_performance", "minor"))) :=
  ⟨by decide, c6_severity_mapping MEPSdet 32400 21600 44160 10800 (by decide)⟩

end Slamon
